import Mathlib

/-!
Verification of the batch-processing UI layer of the Rust-ine repository.

Each definition below is a shallow embedding of a function of the
TypeScript source (file and symbol named in its doc comment).  Effects at
the Tauri boundary (`invoke`, `mkdir`, `emit`) are modelled by explicit
outcome parameters (`Except` values or outcome-per-index functions), and
React state updates by the returned values.
-/

namespace Rustine

/-- `ProcessingResult` from `src/types.ts`.  Sizes and dimensions are byte
and pixel counts, modelled as `Nat`. -/
structure ProcessingResult where
  input_path : String
  output_path : String
  success : Bool
  error : Option String
  input_size : Nat
  output_size : Nat
  input_width : Nat
  input_height : Nat
  output_width : Nat
  output_height : Nat
deriving Repr, DecidableEq

/-- `BatchProgress` from `src/types.ts`: the shape returned by every batch
processing command. -/
structure BatchProgress where
  completed : Nat
  total : Nat
  results : List ProcessingResult
deriving Repr, DecidableEq

/-- `PdfExtractionResult` from `src/types.ts`. -/
structure PdfExtractionResult where
  pdf_path : String
  output_dir : String
  extracted_count : Nat
  errors : List String
deriving Repr, DecidableEq

/-- `TabId` from `src/types.ts`. -/
inductive TabId where
  | compress
  | convert
  | resize
  | watermark
  | strip
  | optimize
  | crop
  | palette
  | pdf
  | pdfBuilder
  | pdfToImages
  | pdfSplit
  | pdfCompress
  | pdfProtect
  | favicon
  | animation
  | spritesheet
deriving Repr, DecidableEq

/-- `WatermarkPosition` from `src/types.ts`. -/
inductive WatermarkPosition where
  | center
  | topLeft
  | topRight
  | bottomLeft
  | bottomRight
  | tiled
deriving Repr, DecidableEq

/-- `SUB_FOLDERS` from the `useWorkspace` hook: the fixed per-tab output
subfolder names.  (The source map also lists entries for tab ids that do
not occur in the `TabId` union of `src/types.ts`; those keys are
unreachable through the typed interface and are omitted.) -/
def SUB_FOLDERS : TabId → String
  | .compress => "compressed"
  | .convert => "converted"
  | .resize => "resized"
  | .watermark => "watermarked"
  | .strip => "stripped"
  | .optimize => "optimized"
  | .crop => "cropped"
  | .pdf => "pdf-extracted"
  | .pdfBuilder => "pdf-built"
  | .palette => "palettes"
  | .pdfToImages => "pdf-pages"
  | .pdfSplit => "pdf-split"
  | .pdfCompress => "pdf-compressed"
  | .favicon => "favicons"
  | .animation => "animations"
  | .spritesheet => "spritesheets"
  | .pdfProtect => "pdf-protected"

/-- `getOutputDir` from the `useWorkspace` hook.  `workspace` is the stored
workspace string (empty when the setting is unset — `!workspace` in JS).
`mkdirOutcome` is the outcome of the `exists`/`mkdir` ensure-step; the
source wraps that step in `try { ... } catch (err) { console.error(...) }`
and returns `outputDir` on both paths, which the final `match` mirrors. -/
def getOutputDir (workspace : String) (tabId : TabId)
    (mkdirOutcome : Except String Unit) : String :=
  if workspace = "" then ""
  else
    let sep := if workspace.contains '/' then "/" else "\\"
    let outputDir := workspace ++ sep ++ SUB_FOLDERS tabId
    match mkdirOutcome with
    | .ok _ => outputDir
    | .error _ => outputDir

/-- The claim's description of `getOutputDir` (C9), written from its words:
empty exactly when the workspace setting is unset, otherwise the workspace
joined to the tab's fixed subfolder with a separator chosen by whether the
workspace string contains a forward slash. -/
def getOutputDirSpec (workspace : String) (tabId : TabId) : String :=
  if workspace = "" then ""
  else
    workspace ++ (if workspace.contains '/' then "/" else "\\") ++ SUB_FOLDERS tabId

/-- The toast reported by `process` in `useTabProcessor.ts` (and by the
identical classification in `ResizeTab.handleResize` etc.). -/
inductive ProcessReport where
  | noFilesSelected
  | workspaceMissing
  | fullSuccess
  | mixedWarning (completed total : Nat)
  | allFailed
  | invokeError (err : String)
deriving Repr, DecidableEq

/-- Observable outcome of one `process` call: whether the backend command
was invoked at all, which toast was shown, and the `results` state that was
set (`none` when an early return or the catch branch left it cleared). -/
structure ProcessOutcome where
  invoked : Bool
  report : ProcessReport
  results : Option (List ProcessingResult)
deriving Repr, DecidableEq

/-- `process` from `useTabProcessor.ts`.  `invokeOutcome` is the resolution
of `invoke<BatchProgress>(command, ...)`: `.error` models a rejected
promise caught by the `catch` branch. -/
def processTab (files : List String) (workspace : String) (tabId : TabId)
    (mkdirOutcome : Except String Unit)
    (invokeOutcome : Except String BatchProgress) : ProcessOutcome :=
  if files.length = 0 then ⟨false, .noFilesSelected, none⟩
  else
    let outputDir := getOutputDir workspace tabId mkdirOutcome
    if outputDir = "" then ⟨false, .workspaceMissing, none⟩
    else
      match invokeOutcome with
      | .error e => ⟨true, .invokeError e, none⟩
      | .ok r =>
        if r.completed = r.total then ⟨true, .fullSuccess, some r.results⟩
        else if r.completed > 0 then ⟨true, .mixedWarning r.completed r.total, some r.results⟩
        else ⟨true, .allFailed, some r.results⟩

/-- The `filename` computation of `PdfTab.handleExtract`:
`files[i].split(/[\\/]/).pop() || files[i]`.  The JS `||` falls back to the
whole path when `.pop()` yields a falsy value (the empty string, or
`undefined` on an empty array). -/
def pathFilename (p : String) : String :=
  match (p.split fun c => c == '/' || c == '\\').getLast? with
  | some s => if s = "" then p else s
  | none => p

/-- One `"processing-progress"` event payload as emitted by
`PdfTab.handleExtract` (`{ completed: i + 1, total }`). -/
structure ProgressEvent where
  completed : Nat
  total : Nat
deriving Repr, DecidableEq

/-- The `AggregatedPdfResult` accumulator of `PdfTab.tsx`. -/
structure AggregatedPdfResult where
  total_extracted : Nat
  errors : List String
deriving Repr, DecidableEq

/-- The `for` loop of `PdfTab.handleExtract`: `i` is the loop counter, the
list holds the files not yet attempted, and `extractOutcome i` is the
resolution of the i-th `invoke("extract_pdf_images", ...)` (`.error`
models a rejected promise caught by the per-iteration `catch`).  Returns
the final accumulator and the progress events emitted inside the loop, in
emission order. -/
def extractGo (total : Nat) (extractOutcome : Nat → Except String PdfExtractionResult) :
    Nat → List String → AggregatedPdfResult → AggregatedPdfResult × List ProgressEvent
  | _, [], agg => (agg, [])
  | i, p :: rest, agg =>
    let next :=
      match extractOutcome i with
      | .ok res =>
        { total_extracted := agg.total_extracted + res.extracted_count,
          errors := agg.errors ++ res.errors }
      | .error err =>
        { agg with errors := agg.errors ++ [pathFilename p ++ ": " ++ err] }
    let tail := extractGo total extractOutcome (i + 1) rest next
    (tail.1, ⟨i + 1, total⟩ :: tail.2)

/-- The toast reported by `PdfTab.handleExtract`. -/
inductive ExtractReport where
  | selectPdfMissing
  | workspaceMissing
  | extractSuccess (n : Nat)
  | extractWarning (n total : Nat)
  | extractAllFailed
  | noImagesFound
deriving Repr, DecidableEq

/-- Observable outcome of one `PdfTab.handleExtract` call: the toast, the
`result` state finally set (`none` on the early returns), and the full
`"processing-progress"` event stream in emission order, including the
terminal event emitted after the loop. -/
structure ExtractOutcome where
  report : ExtractReport
  result : Option AggregatedPdfResult
  events : List ProgressEvent
deriving Repr, DecidableEq

/-- `handleExtract` from `PdfTab.tsx` (the workspace-based variant that
emits `"processing-progress"` events). -/
def handleExtract (files : List String) (workspace : String)
    (mkdirOutcome : Except String Unit)
    (extractOutcome : Nat → Except String PdfExtractionResult) : ExtractOutcome :=
  if files.length = 0 then ⟨.selectPdfMissing, none, []⟩
  else
    let outputDir := getOutputDir workspace .pdf mkdirOutcome
    if outputDir = "" then ⟨.workspaceMissing, none, []⟩
    else
      let total := files.length
      let run := extractGo total extractOutcome 0 files ⟨0, []⟩
      let agg := run.1
      let report :=
        if 0 < agg.total_extracted ∧ agg.errors.length = 0 then
          ExtractReport.extractSuccess agg.total_extracted
        else if 0 < agg.total_extracted then ExtractReport.extractWarning agg.total_extracted total
        else if 0 < agg.errors.length then ExtractReport.extractAllFailed
        else ExtractReport.noImagesFound
      ⟨report, some agg, run.2 ++ [⟨total, total⟩]⟩

/-- `addFiles` from `useFileSelection.ts`: filter the incoming paths
against a set of the already-selected ones and append the survivors. -/
def addFiles (prev paths : List String) : List String :=
  let unique := paths.filter fun p => !(prev.contains p)
  if 0 < unique.length then prev ++ unique else prev

/-- `removeFile` from `useFileSelection.ts`:
`prev.filter((_, i) => i !== index)`. -/
def removeFile (prev : List String) (index : Nat) : List String :=
  (prev.enum.filter fun pr => pr.1 != index).map Prod.snd

/-- One caller action on the selected-file list. -/
inductive FileAction where
  | add (paths : List String)
  | remove (index : Nat)
deriving Repr, DecidableEq

/-- Apply one `useFileSelection` action to the current `files` state. -/
def applyFileAction (st : List String) : FileAction → List String
  | .add ps => addFiles st ps
  | .remove i => removeFile st i

/-- The `files` state after a sequence of `addFiles`/`removeFile` calls,
starting from the initial empty selection. -/
def runFileActions (acts : List FileAction) : List String :=
  acts.foldl applyFileAction []

/-- The `ProgressPayload` received by `useProcessingProgress`. -/
structure ProgressPayload where
  completed : Nat
  total : Nat
  current_file : Option String
deriving Repr, DecidableEq

/-- The render guard of `GlobalProgressBar.tsx`:
`if (!progress || progress.completed >= progress.total) return null;` —
`true` exactly when a visible indicator is rendered. -/
def globalProgressBarVisible (progress : Option ProgressPayload) : Bool :=
  match progress with
  | none => false
  | some p => if p.completed ≥ p.total then false else true

/-- `min={5}` of the opacity range input in `WatermarkTab.tsx`. -/
def watermarkOpacityMin : Nat := 5

/-- `max={100}` of the opacity range input in `WatermarkTab.tsx`. -/
def watermarkOpacityMax : Nat := 100

/-- An opacity percentage the watermark UI slider can produce. -/
def opacitySelectable (p : Nat) : Prop :=
  watermarkOpacityMin ≤ p ∧ p ≤ watermarkOpacityMax

instance (p : Nat) : Decidable (opacitySelectable p) :=
  inferInstanceAs (Decidable (watermarkOpacityMin ≤ p ∧ p ≤ watermarkOpacityMax))

/-- The argument record passed to `invoke("add_watermark", ...)`. -/
structure AddWatermarkArgs where
  inputPaths : List String
  text : String
  position : WatermarkPosition
  opacity : ℚ
  fontSize : Nat
  outputDir : String
deriving Repr, DecidableEq

/-- The argument construction of `WatermarkTab.handleWatermark`: the UI
opacity percentage is sent as `opacity / 100` (exact division, modelled
in `ℚ`). -/
def handleWatermarkArgs (files : List String) (text : String)
    (position : WatermarkPosition) (opacity fontSize : Nat)
    (outputDir : String) : AddWatermarkArgs :=
  { inputPaths := files
    text := text.trim
    position := position
    opacity := (opacity : ℚ) / 100
    fontSize := fontSize
    outputDir := outputDir }

/-- `succeeded` count of `ResultsBanner.tsx`. -/
def succeededCount (results : List ProcessingResult) : Nat :=
  (results.filter fun r => r.success).length

/-- `failed` count of `ResultsBanner.tsx`. -/
def failedCount (results : List ProcessingResult) : Nat :=
  (results.filter fun r => !r.success).length

/-- `successResults` of `ResultsBanner.tsx`. -/
def successResults (results : List ProcessingResult) : List ProcessingResult :=
  results.filter fun r => r.success

/-- `totalInput` of `ResultsBanner.sizeStats`: a `reduce` over the
successful results only. -/
def resultsTotalInput (results : List ProcessingResult) : Nat :=
  (successResults results).foldl (fun acc r => acc + r.input_size) 0

/-- `totalOutput` of `ResultsBanner.sizeStats`. -/
def resultsTotalOutput (results : List ProcessingResult) : Nat :=
  (successResults results).foldl (fun acc r => acc + r.output_size) 0

/-- `saved` of `ResultsBanner.sizeStats`:
`totalInput > 0 ? (1 - totalOutput / totalInput) * 100 : 0`. -/
def savedPercent (results : List ProcessingResult) : ℚ :=
  if 0 < resultsTotalInput results then
    (1 - (resultsTotalOutput results : ℚ) / (resultsTotalInput results : ℚ)) * 100
  else 0

/-- The render guard of `ResultsBanner.tsx`:
`if (results.length === 0) return null;` — `true` exactly when the banner
renders. -/
def resultsBannerRenders (results : List ProcessingResult) : Bool :=
  !(results.length == 0)

/-- Output description produced by one successful transform (spec §4.2). -/
structure OutputDescriptor where
  output_path : String
  output_size : Nat
  output_width : Nat
  output_height : Nat
deriving Repr, DecidableEq

/-- Size and dimensions of an input file, read by the worker. -/
structure InputInfo where
  size : Nat
  width : Nat
  height : Nat
deriving Repr, DecidableEq

/-- Modelled from the spec: the worker boundary of the native batch
executor (spec §4.3), whose Rust source is not part of the inspected
files.  A transform failure is caught at the worker boundary and converted
to an `ItemResult{success:false, error}` entry; a success yields an entry
with `success:true` and the transform's output descriptor. -/
def runItem (transform : String → Except String OutputDescriptor)
    (info : String → InputInfo) (p : String) : ProcessingResult :=
  match transform p with
  | .ok d =>
    { input_path := p
      output_path := d.output_path
      success := true
      error := none
      input_size := (info p).size
      output_size := d.output_size
      input_width := (info p).width
      input_height := (info p).height
      output_width := d.output_width
      output_height := d.output_height }
  | .error e =>
    { input_path := p
      output_path := ""
      success := false
      error := some e
      input_size := (info p).size
      output_size := 0
      input_width := (info p).width
      input_height := (info p).height
      output_width := 0
      output_height := 0 }

/-- Modelled from the spec: the batch executor plus result aggregator of
the native backend (spec §4.3, §4.6), whose Rust source is not part of the
inspected files.  `order` is the completion order of the worker pool, a
permutation of the input indices (results arrive in completion order, not
input order); `completed` counts the successful results and `total` is the
request size. -/
def run_batch (inputs : List String) (order : List Nat)
    (transform : String → Except String OutputDescriptor)
    (info : String → InputInfo) : BatchProgress :=
  let results := order.map fun i => runItem transform info (inputs.getD i "")
  { completed := (results.filter fun r => r.success).length
    total := inputs.length
    results := results }

/-! ## Helper lemmas -/

theorem getOutputDir_eq_spec (ws : String) (t : TabId) (mk : Except String Unit) :
    getOutputDir ws t mk = getOutputDirSpec ws t := by
  unfold getOutputDir getOutputDirSpec
  cases mk <;> rfl

theorem string_append_ne_empty_left (a b : String) (h : a ≠ "") : a ++ b ≠ "" := by
  intro hc
  apply h
  apply String.ext
  have hdata := congrArg String.data hc
  rw [String.data_append] at hdata
  exact (List.append_eq_nil.mp hdata).1

theorem getOutputDirSpec_empty_iff (ws : String) (t : TabId) :
    getOutputDirSpec ws t = "" ↔ ws = "" := by
  unfold getOutputDirSpec
  by_cases h : ws = ""
  · simp [h]
  · rw [if_neg h]
    have hne : ws ++ (if ws.contains '/' then "/" else "\\") ++ SUB_FOLDERS t ≠ "" :=
      string_append_ne_empty_left _ _ (string_append_ne_empty_left _ _ h)
    exact ⟨fun hc => absurd hc hne, fun hc => absurd hc h⟩

theorem getOutputDir_ne_empty (ws : String) (t : TabId) (mk : Except String Unit)
    (h : ws ≠ "") : getOutputDir ws t mk ≠ "" := by
  rw [getOutputDir_eq_spec]
  exact fun hc => h ((getOutputDirSpec_empty_iff ws t).mp hc)

theorem length_filter_add_length_filter_not {α : Type} (l : List α) (p : α → Bool) :
    (l.filter p).length + (l.filter fun a => !(p a)).length = l.length := by
  induction l with
  | nil => rfl
  | cons a t ih => by_cases h : p a <;> simp [List.filter_cons, h, ← ih] <;> omega

theorem foldl_add_eq_sum {α : Type} (f : α → Nat) (l : List α) :
    ∀ n : Nat, l.foldl (fun acc r => acc + f r) n = n + (l.map f).sum := by
  induction l with
  | nil => intro n; simp
  | cons a t ih => intro n; rw [List.foldl_cons, ih, List.map_cons, List.sum_cons]; omega

theorem addFiles_eq_append (prev ps : List String) :
    addFiles prev ps = prev ++ ps.filter fun p => !(prev.contains p) := by
  simp only [addFiles]
  split
  · rfl
  · next h =>
    have h0 : (ps.filter fun p => !(prev.contains p)) = [] :=
      List.length_eq_zero.mp (Nat.eq_zero_of_not_pos h)
    rw [h0, List.append_nil]

theorem addFiles_nodup (prev ps : List String) (hprev : prev.Nodup) (hps : ps.Nodup) :
    (addFiles prev ps).Nodup := by
  rw [addFiles_eq_append]
  refine hprev.append (hps.filter _) ?_
  intro a ha hb
  have hcond := (List.mem_filter.mp hb).2
  rw [Bool.not_eq_true'] at hcond
  have : prev.contains a = true := List.elem_iff.mpr ha
  rw [hcond] at this
  exact Bool.false_ne_true this

theorem removeFile_sublist (prev : List String) (i : Nat) :
    List.Sublist (removeFile prev i) prev := by
  unfold removeFile
  have h1 : List.Sublist (prev.enum.filter fun pr => pr.1 != i) prev.enum :=
    List.filter_sublist _
  have h2 := h1.map Prod.snd
  rwa [List.enum_map_snd] at h2

theorem runFileActions_nodup_aux (acts : List FileAction) :
    ∀ st : List String, st.Nodup → (∀ ps, FileAction.add ps ∈ acts → ps.Nodup) →
      (acts.foldl applyFileAction st).Nodup := by
  induction acts with
  | nil => intro st h _; simpa using h
  | cons a t ih =>
    intro st hst hacts
    rw [List.foldl_cons]
    apply ih
    · cases a with
      | add ps => exact addFiles_nodup st ps hst (hacts ps (by simp))
      | remove i => exact (removeFile_sublist st i).nodup hst
    · intro ps hmem
      exact hacts ps (List.mem_cons_of_mem _ hmem)

theorem runItem_input_path (tr : String → Except String OutputDescriptor)
    (info : String → InputInfo) (p : String) : (runItem tr info p).input_path = p := by
  unfold runItem
  cases tr p <;> rfl

theorem map_getD_range (l : List String) (d : String) :
    (List.range l.length).map (fun i => l.getD i d) = l := by
  induction l with
  | nil => simp
  | cons a t ih =>
    rw [List.length_cons, List.range_succ_eq_map, List.map_cons, List.map_map]
    simp only [Function.comp_def, List.getD_cons_zero, List.getD_cons_succ]
    rw [ih]

theorem extractGo_events (total : Nat) (ex : Nat → Except String PdfExtractionResult)
    (l : List String) :
    ∀ (i : Nat) (agg : AggregatedPdfResult),
      (extractGo total ex i l agg).2
        = (List.range l.length).map fun j => ProgressEvent.mk (i + j + 1) total := by
  induction l with
  | nil => intro i agg; simp [extractGo]
  | cons p rest ih =>
    intro i agg
    simp only [extractGo, List.length_cons]
    rw [List.range_succ_eq_map, List.map_cons, List.map_map, ih]
    refine congrArg₂ List.cons (by rw [Nat.add_zero]) ?_
    refine List.map_congr_left fun j _ => ?_
    simp only [Function.comp_def]
    exact congrArg (fun n => ProgressEvent.mk n total) (by omega)

theorem extractGo_errors_mono (total : Nat) (ex : Nat → Except String PdfExtractionResult)
    (l : List String) :
    ∀ (i : Nat) (agg : AggregatedPdfResult),
      agg.errors <+: (extractGo total ex i l agg).1.errors := by
  induction l with
  | nil => intro i agg; exact List.prefix_refl _
  | cons p rest ih =>
    intro i agg
    cases hex : ex i with
    | ok res =>
      simp only [extractGo, hex]
      exact (List.prefix_append _ res.errors).trans
        (ih (i + 1) { total_extracted := agg.total_extracted + res.extracted_count,
                      errors := agg.errors ++ res.errors })
    | error err =>
      simp only [extractGo, hex]
      exact (List.prefix_append _ [pathFilename p ++ ": " ++ err]).trans
        (ih (i + 1) { total_extracted := agg.total_extracted,
                      errors := agg.errors ++ [pathFilename p ++ ": " ++ err] })

theorem extractGo_error_mem (total : Nat) (ex : Nat → Except String PdfExtractionResult)
    (l : List String) :
    ∀ (i : Nat) (agg : AggregatedPdfResult) (k : Nat) (hk : k < l.length) (err : String),
      ex (i + k) = .error err →
      pathFilename (l.get ⟨k, hk⟩) ++ ": " ++ err ∈ (extractGo total ex i l agg).1.errors := by
  induction l with
  | nil => intro i agg k hk err _; exact absurd hk (by simp)
  | cons p rest ih =>
    intro i agg k hk err hex
    cases k with
    | zero =>
      have hex0 : ex i = .error err := by simpa using hex
      simp only [extractGo, hex0, List.get]
      refine (extractGo_errors_mono total ex rest (i + 1) _).subset ?_
      exact List.mem_append_right _ (List.mem_singleton.mpr rfl)
    | succ k1 =>
      have hk1 : k1 < rest.length := by simpa using hk
      have hsh : i + (k1 + 1) = (i + 1) + k1 := by omega
      rw [hsh] at hex
      cases hrx : ex i with
      | ok res =>
        simp only [extractGo, hrx, List.get]
        exact ih (i + 1) _ k1 hk1 err hex
      | error e2 =>
        simp only [extractGo, hrx, List.get]
        exact ih (i + 1) _ k1 hk1 err hex

theorem countP_range_eq_one (n : Nat) (hn : 0 < n) :
    (List.range n).countP (fun j => j + 1 == n) = 1 := by
  cases n with
  | zero => exact absurd hn (by simp)
  | succ m =>
    rw [List.range_succ, List.countP_append]
    have hz : (List.range m).countP (fun j => j + 1 == m + 1) = 0 := by
      refine List.countP_eq_zero.mpr fun a ha => ?_
      have : a < m := List.mem_range.mp ha
      simp only [beq_iff_eq]
      omega
    rw [hz]
    simp

/-! ## Claim theorems -/

/-- Claim C7: GlobalProgressBar renders a visible indicator exactly when a
progress payload is present and its completed count is strictly below its
total; in particular any payload with completed equal to or above total
renders nothing, so the terminal progress event clears the indicator. -/
theorem c7_progress_bar_visible_iff (progress : Option ProgressPayload) :
    globalProgressBarVisible progress = true
      ↔ ∃ p, progress = some p ∧ p.completed < p.total := by
  cases progress with
  | none => simp [globalProgressBarVisible]
  | some p =>
    simp only [globalProgressBarVisible, Option.some.injEq]
    by_cases h : p.completed ≥ p.total
    · rw [if_pos h]
      simp only [Bool.false_eq_true, false_iff]
      rintro ⟨q, rfl, hlt⟩
      omega
    · rw [if_neg h]
      simp only [true_iff]
      exact ⟨p, rfl, by omega⟩

/-- Claim C9: getOutputDir is a deterministic function of the stored
workspace string and the tab id: it equals the description
getOutputDirSpec (workspace joined to the tab's fixed subfolder, with "/"
when the workspace contains "/" and "\" otherwise), it is empty exactly
when the workspace setting is unset, and the same path is returned
whatever the outcome of the ensure-directory-exists step. -/
theorem c9_getOutputDir_characterization (ws : String) (t : TabId)
    (mk : Except String Unit) :
    getOutputDir ws t mk = getOutputDirSpec ws t
      ∧ (getOutputDir ws t mk = "" ↔ ws = "")
      ∧ ∀ mk2, getOutputDir ws t mk = getOutputDir ws t mk2 := by
  refine ⟨getOutputDir_eq_spec ws t mk, ?_, ?_⟩
  · rw [getOutputDir_eq_spec]
    exact getOutputDirSpec_empty_iff ws t
  · intro mk2
    rw [getOutputDir_eq_spec, getOutputDir_eq_spec]

/-- Claim C10: ResultsBanner renders nothing exactly when the results list
is empty; its succeeded and failed counts partition the list; and its
size-saved percentage equals (1 - total output size / total input size) *
100 computed over the successful results only, defined as 0 when their
total input size is 0, so the division is never taken with a zero
denominator. -/
theorem c10_results_banner_stats (results : List ProcessingResult) :
    (resultsBannerRenders results = false ↔ results = [])
      ∧ succeededCount results + failedCount results = results.length
      ∧ savedPercent results
          = (if 0 < (((successResults results).map fun r => r.input_size).sum : ℕ) then
              (1 - (((((successResults results).map fun r => r.output_size).sum : ℕ) : ℚ)
                  / (((((successResults results).map fun r => r.input_size).sum : ℕ) : ℚ)))) * 100
             else 0) := by
  refine ⟨?_, ?_, ?_⟩
  · simp [resultsBannerRenders, List.length_eq_zero]
  · exact length_filter_add_length_filter_not results fun r => r.success
  · unfold savedPercent resultsTotalInput resultsTotalOutput
    rw [foldl_add_eq_sum, foldl_add_eq_sum]
    simp only [Nat.zero_add]

/-- Claim C2: with files selected and a workspace set, the command
boundary classifies every batch result returned by the processing command
three ways from completed versus total: equal counts give a plain
success, a nonzero number of successes below total gives a warning
carrying the counts completed and total, and zero successes give the
full-failure report. -/
theorem c2_three_way_classification (files : List String) (ws : String) (tab : TabId)
    (mk : Except String Unit) (r : BatchProgress) (hf : files ≠ []) (hw : ws ≠ "") :
    (processTab files ws tab mk (Except.ok r)).invoked = true
      ∧ (r.completed = r.total →
          (processTab files ws tab mk (Except.ok r)).report = ProcessReport.fullSuccess)
      ∧ (r.completed ≠ r.total → 0 < r.completed →
          (processTab files ws tab mk (Except.ok r)).report
            = ProcessReport.mixedWarning r.completed r.total)
      ∧ (r.completed ≠ r.total → r.completed = 0 →
          (processTab files ws tab mk (Except.ok r)).report = ProcessReport.allFailed) := by
  have hlen : ¬ files.length = 0 := by simpa [List.length_eq_zero] using hf
  have hdir := getOutputDir_ne_empty ws tab mk hw
  simp only [processTab, if_neg hlen, if_neg hdir]
  refine ⟨?_, ?_, ?_, ?_⟩
  · split <;> (try split) <;> rfl
  · intro h
    rw [if_pos h]
  · intro h hpos
    rw [if_neg h, if_pos hpos]
  · intro h h0
    rw [if_neg h, if_neg (by omega)]

/-- Witness for C2 at a concrete partial-success batch result. -/
theorem c2_three_way_classification_witness :
    (processTab ["a.png"] "/w" TabId.compress (Except.ok ())
        (Except.ok ⟨2, 3, []⟩)).report = ProcessReport.mixedWarning 2 3 :=
  (c2_three_way_classification ["a.png"] "/w" TabId.compress (Except.ok ()) ⟨2, 3, []⟩
      (by decide) (by decide)).2.2.1 (by decide) (by decide)

/-- Claim C5 fails on the code: with a file selected and a workspace set,
a failing ensure-output-directory step is caught inside getOutputDir,
which still returns the computed path, and the processing command is
invoked anyway — the call does not fail before per-item work starts. -/
theorem c5_mkdir_failure_counterexample :
    (processTab ["a.png"] "/w" TabId.compress (Except.error "disk full")
        (Except.ok ⟨1, 1, []⟩)).invoked = true
      ∧ ¬ ((processTab ["a.png"] "/w" TabId.compress (Except.error "disk full")
          (Except.ok ⟨1, 1, []⟩)).invoked = false) := by
  decide

/-- Claim C5 (amended): only an unset workspace setting makes the call
fail before any per-item work — no processing command is invoked and the
workspace-missing error is reported; a failure of the output-directory
creation step is swallowed inside getOutputDir and the processing command
is still invoked. -/
theorem c5_precondition_amended (files : List String) (ws : String) (tab : TabId)
    (e : String) (mk : Except String Unit) (inv : Except String BatchProgress)
    (hf : files ≠ []) :
    (processTab files "" tab mk inv).invoked = false
      ∧ (processTab files "" tab mk inv).report = ProcessReport.workspaceMissing
      ∧ (ws ≠ "" → (processTab files ws tab (Except.error e) inv).invoked = true) := by
  have hlen : ¬ files.length = 0 := by simpa [List.length_eq_zero] using hf
  have hout : getOutputDir "" tab mk = "" := by
    rw [getOutputDir_eq_spec]
    exact (getOutputDirSpec_empty_iff "" tab).mpr rfl
  refine ⟨?_, ?_, ?_⟩
  · simp [processTab, hout, hf]
  · simp [processTab, hout, hf]
  · intro hw
    have hdir := getOutputDir_ne_empty ws tab (Except.error e) hw
    cases inv with
    | error err => simp [processTab, hf, hdir]
    | ok r => simp [processTab, hf, hdir, apply_ite ProcessOutcome.invoked]

/-- Witness for the amended C5 at a concrete unset-workspace call. -/
theorem c5_precondition_amended_witness :
    (processTab ["a.png"] "" TabId.resize (Except.ok ())
        (Except.ok ⟨0, 1, []⟩)).invoked = false :=
  (c5_precondition_amended ["a.png"] "/w" TabId.resize "boom" (Except.ok ())
      (Except.ok ⟨0, 1, []⟩) (by decide)).1

/-- Claim C6 fails on the code: addFiles filters the incoming batch only
against the previously selected paths, not against itself, so one call
adding the same path twice starting from the empty selection yields a
files list containing that path twice. -/
theorem c6_duplicate_add_counterexample :
    runFileActions [FileAction.add ["a", "a"]] = ["a", "a"]
      ∧ ¬ (runFileActions [FileAction.add ["a", "a"]]).Nodup := by
  decide

/-- Claim C6 (amended): provided each addFiles call's incoming batch is
itself duplicate-free, every files list reachable from the empty
selection by addFiles and removeFile calls contains each path at most
once; and addFiles always keeps the previously selected paths as an
unchanged prefix and appends only paths not already present. -/
theorem c6_dedup_amended :
    (∀ acts : List FileAction, (∀ ps, FileAction.add ps ∈ acts → ps.Nodup) →
        (runFileActions acts).Nodup)
      ∧ ∀ prev ps : List String,
          prev <+: addFiles prev ps
            ∧ ∀ q ∈ addFiles prev ps, q ∈ prev ∨ (q ∈ ps ∧ q ∉ prev) := by
  constructor
  · intro acts h
    exact runFileActions_nodup_aux acts [] List.nodup_nil h
  · intro prev ps
    rw [addFiles_eq_append]
    refine ⟨List.prefix_append _ _, ?_⟩
    intro q hq
    rcases List.mem_append.mp hq with h | h
    · exact Or.inl h
    · have h2 := List.mem_filter.mp h
      refine Or.inr ⟨h2.1, ?_⟩
      have hc := h2.2
      rw [Bool.not_eq_true'] at hc
      intro hqp
      have hmem : prev.contains q = true := List.elem_iff.mpr hqp
      rw [hc] at hmem
      exact Bool.false_ne_true hmem

/-- Witness for the amended C6 on a concrete action sequence whose add
batches are duplicate-free. -/
theorem c6_dedup_amended_witness :
    (runFileActions [FileAction.add ["a", "b"], FileAction.remove 0,
        FileAction.add ["b", "c"]]).Nodup :=
  c6_dedup_amended.1 _ (by
    intro ps h
    simp only [List.mem_cons, List.not_mem_nil, or_false, FileAction.add.injEq] at h
    rcases h with h | h | h
    · subst h; decide
    · exact absurd h (by simp)
    · subst h; decide)

/-- Claim C8 overstates the selectable range: the watermark opacity
slider's minimum is 5, so the percentage 0 — although within 0-100 — is
not a selectable opacity value in the watermark UI. -/
theorem c8_opacity_range_counterexample :
    (0 : Nat) ≤ watermarkOpacityMax ∧ ¬ opacitySelectable 0 := by
  decide

/-- Claim C8 (amended): for every opacity percentage p selectable in the
watermark UI — the integers from 5 to 100 — the add_watermark command
receives the opacity parameter equal to p divided by 100, which lies
between 1/20 and 1 and hence within the interval 0.0 to 1.0. -/
theorem c8_opacity_amended (files : List String) (text : String)
    (position : WatermarkPosition) (p fontSize : Nat) (outputDir : String)
    (hp : opacitySelectable p) :
    (handleWatermarkArgs files text position p fontSize outputDir).opacity = (p : ℚ) / 100
      ∧ (1 : ℚ) / 20 ≤ (handleWatermarkArgs files text position p fontSize outputDir).opacity
      ∧ (handleWatermarkArgs files text position p fontSize outputDir).opacity ≤ 1
      ∧ 0 ≤ (handleWatermarkArgs files text position p fontSize outputDir).opacity := by
  have hp5 : (5 : ℚ) ≤ (p : ℚ) := by exact_mod_cast hp.1
  have hp100 : (p : ℚ) ≤ 100 := by exact_mod_cast hp.2
  refine ⟨rfl, ?_, ?_, ?_⟩
  · show (1 : ℚ) / 20 ≤ (p : ℚ) / 100
    rw [div_le_div_iff₀ (by norm_num) (by norm_num)]
    linarith
  · show (p : ℚ) / 100 ≤ 1
    rw [div_le_one (by norm_num)]
    exact hp100
  · show (0 : ℚ) ≤ (p : ℚ) / 100
    positivity

/-- Witness for the amended C8 at the default opacity percentage 30. -/
theorem c8_opacity_amended_witness :
    (handleWatermarkArgs ["x.png"] "wm" WatermarkPosition.center 30 48 "/o").opacity
      = (30 : ℚ) / 100 :=
  (c8_opacity_amended ["x.png"] "wm" WatermarkPosition.center 30 48 "/o" (by decide)).1

/-- Claim C3: in the PDF extraction batch loop a rejected per-file
invocation never aborts the batch: an error entry naming that file is
recorded in the aggregated errors, the loop still attempts all N files,
and a progress event is emitted for every one of them. -/
theorem c3_pdf_item_failure_isolated (files : List String) (ws : String)
    (mk : Except String Unit) (ex : Nat → Except String PdfExtractionResult)
    (k : Nat) (err : String) (hw : ws ≠ "") (hk : k < files.length)
    (hex : ex k = Except.error err) :
    (handleExtract files ws mk ex).events.length = files.length + 1
      ∧ (∀ j, j < files.length →
          (handleExtract files ws mk ex).events[j]? = some ⟨j + 1, files.length⟩)
      ∧ ∃ agg, (handleExtract files ws mk ex).result = some agg
          ∧ pathFilename (files.get ⟨k, hk⟩) ++ ": " ++ err ∈ agg.errors := by
  have hlen : ¬ files.length = 0 := by omega
  have hdir := getOutputDir_ne_empty ws .pdf mk hw
  simp only [handleExtract, if_neg hlen, if_neg hdir]
  refine ⟨?_, ?_, ?_⟩
  · rw [extractGo_events]
    simp
  · intro j hj
    rw [extractGo_events]
    rw [List.getElem?_append_left (by simpa using hj)]
    rw [List.getElem?_map, List.getElem?_range hj]
    simp
  · refine ⟨(extractGo files.length ex 0 files ⟨0, []⟩).1, rfl, ?_⟩
    exact extractGo_error_mem files.length ex files 0 ⟨0, []⟩ k hk err (by simpa using hex)

/-- Witness for C3 on a two-file batch whose first extraction rejects. -/
theorem c3_pdf_item_failure_isolated_witness :
    (handleExtract ["a.pdf", "b.pdf"] "/w" (Except.ok ())
        (fun i => if i == 0 then Except.error "corrupt"
          else Except.ok ⟨"b.pdf", "o", 1, []⟩)).events.length = 3 :=
  (c3_pdf_item_failure_isolated ["a.pdf", "b.pdf"] "/w" (Except.ok ())
      (fun i => if i == 0 then Except.error "corrupt"
        else Except.ok ⟨"b.pdf", "o", 1, []⟩) 0 "corrupt"
      (by decide) (by decide) rfl).1

/-- Claim C4 fails on the code: the loop's final iteration already emits
an event with completed equal to total, and a second terminal event with
completed equal to total is emitted again after the loop, so a one-file
batch carries two such events, not exactly one. -/
theorem c4_terminal_event_counterexample :
    (handleExtract ["a.pdf"] "/w" (Except.ok ())
        (fun _ => Except.ok ⟨"a.pdf", "/w/pdf-extracted", 2, []⟩)).events
      = [⟨1, 1⟩, ⟨1, 1⟩]
      ∧ ¬ ((((handleExtract ["a.pdf"] "/w" (Except.ok ())
          (fun _ => Except.ok ⟨"a.pdf", "/w/pdf-extracted", 2, []⟩)).events.filter
            fun ev => ev.completed == ev.total).length) = 1) := by
  decide

/-- Claim C4 (amended): over a non-empty file list with a workspace set,
the progress stream carries one event per file during the batch plus one
terminal event after it; the stream always ends with an event whose
completed equals total, and it contains exactly two such events (the
final in-loop event and the terminal one), rather than exactly one. -/
theorem c4_terminal_events_amended (files : List String) (ws : String)
    (mk : Except String Unit) (ex : Nat → Except String PdfExtractionResult)
    (hf : files ≠ []) (hw : ws ≠ "") :
    (handleExtract files ws mk ex).events.length = files.length + 1
      ∧ (handleExtract files ws mk ex).events.getLast?
          = some ⟨files.length, files.length⟩
      ∧ (((handleExtract files ws mk ex).events.filter
          fun ev => ev.completed == ev.total).length) = 2 := by
  have hlen : ¬ files.length = 0 := by simpa [List.length_eq_zero] using hf
  have hpos : 0 < files.length := Nat.pos_of_ne_zero hlen
  have hdir := getOutputDir_ne_empty ws .pdf mk hw
  simp only [handleExtract, if_neg hlen, if_neg hdir]
  refine ⟨?_, ?_, ?_⟩
  · rw [extractGo_events]
    simp
  · rw [List.getLast?_concat]
  · rw [extractGo_events, List.filter_append, List.length_append]
    have h1 : (((List.range files.length).map
        fun j => ProgressEvent.mk (0 + j + 1) files.length).filter
          fun ev => ev.completed == ev.total).length = 1 := by
      rw [← List.countP_eq_length_filter, List.countP_map]
      have heq : ((fun ev : ProgressEvent => ev.completed == ev.total) ∘
          fun j => ProgressEvent.mk (0 + j + 1) files.length)
          = fun j => j + 1 == files.length := by
        funext j
        simp [Function.comp_def]
      rw [heq]
      exact countP_range_eq_one files.length hpos
    have h2 : (([⟨files.length, files.length⟩] : List ProgressEvent).filter
        fun ev => ev.completed == ev.total).length = 1 := by
      simp
    rw [h1, h2]

/-- Witness for the amended C4 on a concrete two-file batch. -/
theorem c4_terminal_events_amended_witness :
    (((handleExtract ["a.pdf", "b.pdf"] "/w" (Except.error "x")
        (fun _ => Except.error "bad")).events.filter
          fun ev => ev.completed == ev.total).length) = 2 :=
  (c4_terminal_events_amended ["a.pdf", "b.pdf"] "/w" (Except.error "x")
      (fun _ => Except.error "bad") (by decide) (by decide)).2.2

/-- Claim C1: a batch over N input paths returns a summary whose results
list has length exactly N — every input path yields exactly one item
result entry whatever the completion order, failed items included as
entries with success false, total is N, and completed counts the
successes. -/
theorem c1_run_batch_results_length (inputs : List String) (order : List Nat)
    (transform : String → Except String OutputDescriptor) (info : String → InputInfo)
    (hord : order.Perm (List.range inputs.length)) :
    (run_batch inputs order transform info).results.length = inputs.length
      ∧ (run_batch inputs order transform info).total = inputs.length
      ∧ (run_batch inputs order transform info).completed
          = ((run_batch inputs order transform info).results.filter
              fun r => r.success).length
      ∧ ∀ p, ((run_batch inputs order transform info).results.filter
          fun r => r.input_path == p).length = inputs.count p := by
  have hperm : (run_batch inputs order transform info).results.Perm
      (inputs.map fun p => runItem transform info p) := by
    have h1 := hord.map fun i => runItem transform info (inputs.getD i "")
    have h2 : (List.range inputs.length).map
        (fun i => runItem transform info (inputs.getD i ""))
        = inputs.map fun p => runItem transform info p := by
      have h3 : (List.range inputs.length).map
          (fun i => runItem transform info (inputs.getD i ""))
          = ((List.range inputs.length).map fun i => inputs.getD i "").map
              fun p => runItem transform info p := by
        rw [List.map_map]
        rfl
      rw [h3, map_getD_range]
    rw [← h2]
    exact h1
  refine ⟨?_, rfl, rfl, ?_⟩
  · rw [hperm.length_eq, List.length_map]
  · intro p
    rw [← List.countP_eq_length_filter, hperm.countP_eq, List.countP_map,
      List.count_eq_countP]
    refine List.countP_congr fun q hq => ?_
    simp only [Function.comp_def, runItem_input_path]

/-- Witness for C1 on a concrete two-item batch completing out of order
with one failure. -/
theorem c1_run_batch_results_length_witness :
    (run_batch ["a.png", "bad.png"] [1, 0]
        (fun p => if p == "bad.png" then Except.error "corrupt"
          else Except.ok ⟨p ++ ".webp", 10, 1, 1⟩)
        (fun _ => ⟨20, 2, 2⟩)).results.length = 2 :=
  (c1_run_batch_results_length ["a.png", "bad.png"] [1, 0]
      (fun p => if p == "bad.png" then Except.error "corrupt"
        else Except.ok ⟨p ++ ".webp", 10, 1, 1⟩)
      (fun _ => ⟨20, 2, 2⟩) (by decide)).1

end Rustine
